import Mathlib

/-
Verification of the clauf compiler front end (src/compiler.cpp) against its
natural-language specification.

The embedding follows the source file closely:
- `ast_symbol` values are modelled as strings (interning makes equality of
  symbols coincide with equality of their text).
- The lexy grammar in `clauf::grammar` is a character-level PEG; each grammar
  production below becomes a parsing function over `List Char`.  lexy skips
  whitespace (spaces and both comment forms of `translation_unit::whitespace`)
  after every token; the embedding does the same by skipping whitespace after
  each token match.
- `compiler_state` is modelled by `CompilerState`; the dryad symbol table
  becomes an association list whose most recent binding comes first
  (`insert_or_shadow` prepends, `lookup` takes the first match).
- Error-severity messages written through `diag.write_message` are recorded in
  `CompilerState.diags` (newest first); each such site also sets `errored`,
  exactly as in the source.
- `CLAUF_TODO` (from clauf/assert.hpp, which is not part of the sources here)
  is modelled from the spec: section 9 of the specification describes these
  sites as hard-abort placeholders that terminate the process, so reaching one
  is modelled by the distinguished parse outcome `todo_abort`.
- Arena identity of nodes is observable only for declarations looked up in the
  symbol table, so variable declarations carry an allocation counter `id`
  drawn from `CompilerState.next_id`; other node kinds never have their
  identity compared and carry no counter.
- Recursion in the grammar (parenthesised expressions, nested blocks, ...) is
  made structural with an explicit fuel argument; exhausting fuel yields the
  distinguished outcome `out_of_fuel`, which corresponds to no behaviour of
  the C++ program and never occurs for the fuel bounds used below.
-/

namespace Clauf

abbrev Symbol := String

/-- Types: `clauf::builtin_type` (only `int_` exists) and `clauf::function_type`. -/
inductive Ty where
  | builtin_int : Ty
  | function_type (return_type : Ty) : Ty
deriving DecidableEq

/-- Operators of `clauf::unary_expr`. -/
inductive UnaryOp where
  | plus | neg | bnot | lnot
deriving DecidableEq

/-- Operators of `clauf::binary_expr`. -/
inductive BinaryOp where
  | add | sub | mul | div | rem
  | shl | shr
  | lt | le | gt | ge
  | eq | ne
  | band | bxor | bor
deriving DecidableEq

/-- Operators of `clauf::sequenced_binary_expr`. -/
inductive SeqOp where
  | land | lor | comma
deriving DecidableEq

/-- Operators of `clauf::assignment_expr` (only `none`). -/
inductive AssignOp where
  | none
deriving DecidableEq

/-- The two intrinsics of `clauf::builtin_stmt`. -/
inductive BuiltinKind where
  | print | assert
deriving DecidableEq

mutual
/-- Expression nodes of the clauf AST.  Every constructor carries the type
node the compiler decorates it with (always a freshly created builtin int). -/
inductive Expr where
  | integer_constant_expr (ty : Ty) (value : Nat) : Expr
  | identifier_expr (ty : Ty) (decl : Option Decl) : Expr
  | unary_expr (ty : Ty) (op : UnaryOp) (child : Expr) : Expr
  | binary_expr (ty : Ty) (op : BinaryOp) (left right : Expr) : Expr
  | sequenced_binary_expr (ty : Ty) (op : SeqOp) (left right : Expr) : Expr
  | conditional_expr (ty : Ty) (condition if_true if_false : Expr) : Expr
  | assignment_expr (ty : Ty) (op : AssignOp) (left right : Expr) : Expr

/-- Statement nodes of the clauf AST. -/
inductive Stmt where
  | decl_stmt (decls : List Decl) : Stmt
  | expr_stmt (e : Expr) : Stmt
  | builtin_stmt (b : BuiltinKind) (e : Expr) : Stmt
  | block_stmt (stmts : List Stmt) : Stmt

/-- Declaration nodes of the clauf AST.  `variable_decl` carries the arena
allocation counter `id` so that distinct declarations of the same name can be
told apart, as distinct `clauf::decl*` pointers can in the source. -/
inductive Decl where
  | variable_decl (id : Nat) (name : Symbol) (ty : Ty) : Decl
  | function_decl (name : Symbol) (ty : Ty) (body : Stmt) : Decl
end

/-- The name of a declaration, as `clauf::decl::name()`. -/
def Decl.name : Decl → Symbol
  | .variable_decl _ n _ => n
  | .function_decl n _ _ => n

/-- The ephemeral declarator tree (`clauf::name_declarator`,
`clauf::function_declarator`). -/
inductive Declarator where
  | name_declarator (name : Symbol) : Declarator
  | function_declarator (child : Declarator) : Declarator
deriving DecidableEq

/-- Error-severity diagnostics written by the two semantic error sites of the
compiler (newest first in `CompilerState.diags`). -/
inductive Diag where
  | unknown_identifier (name : Symbol)
  | duplicate_local_declaration (name : Symbol)
deriving DecidableEq

/-- The mutable `compiler_state` threaded through all grammar callbacks. -/
structure CompilerState where
  local_symbols : List (Symbol × Decl)
  errored : Bool
  diags : List Diag
  next_id : Nat

/-- Result of parsing one production: success with a value, the unconsumed
input and the updated state; a committed grammar mismatch (syntax error); a
`CLAUF_TODO` hard abort; or fuel exhaustion (an artefact of the embedding). -/
inductive PResult (α : Type) where
  | ok (a : α) (rest : List Char) (st : CompilerState) : PResult α
  | error : PResult α
  | todo_abort : PResult α
  | out_of_fuel : PResult α

/-- Lookup in the dryad symbol table: the most recent binding wins. -/
def lookupSym (tbl : List (Symbol × Decl)) (n : Symbol) : Option Decl :=
  match tbl with
  | [] => Option.none
  | p :: rest => if p.1 = n then Option.some p.2 else lookupSym rest n

/-- One step of `dryad::symbol_table::insert_or_shadow`: returns the shadowed
binding (if any) and installs the new binding (last wins). -/
def insertOrShadow (tbl : List (Symbol × Decl)) (n : Symbol) (d : Decl) :
    Option Decl × List (Symbol × Decl) :=
  (lookupSym tbl n, (n, d) :: tbl)

/-- Characters accepted by `dsl::unicode::xid_start_underscore` (the inputs of
interest are ASCII, where XID-start means a letter). -/
def isIdStart (c : Char) : Bool :=
  c.isAlpha || c = '_'

/-- Characters accepted by `dsl::unicode::xid_continue` (ASCII fragment). -/
def isIdContinue (c : Char) : Bool :=
  c.isAlphanum || c = '_'

/-- Characters of `dsl::ascii::space`. -/
def isSpaceChar (c : Char) : Bool :=
  c = ' ' || c = '\t' || c = '\n' || c = '\r' || c = '\x0b' || c = '\x0c'

/-- Consume the remainder of a line comment: `dsl::until(dsl::newline)`, which
fails if the end of input is reached before a newline. -/
def dropLineComment : List Char → Option (List Char)
  | [] => Option.none
  | '\n' :: rest => Option.some rest
  | _ :: rest => dropLineComment rest

/-- Consume the remainder of a block comment: `dsl::until(LEXY_LIT("*/"))`,
which fails at the end of input. -/
def dropBlockComment : List Char → Option (List Char)
  | '*' :: '/' :: rest => Option.some rest
  | _ :: rest => dropBlockComment rest
  | [] => Option.none

/-- Worker for `skipWs`; each step consumes at least one character, so the
initial fuel `input.length` always suffices. -/
def skipWsGo : Nat → List Char → Option (List Char)
  | 0, input => Option.some input
  | _ + 1, [] => Option.some []
  | f + 1, '/' :: '/' :: rest => (dropLineComment rest).bind (skipWsGo f)
  | f + 1, '/' :: '*' :: rest => (dropBlockComment rest).bind (skipWsGo f)
  | f + 1, c :: rest =>
    if isSpaceChar c then skipWsGo f rest else Option.some (c :: rest)

/-- Skip the automatic whitespace of `translation_unit` (spaces, line comments
and block comments); fails only on an unterminated comment. -/
def skipWs (input : List Char) : Option (List Char) :=
  skipWsGo input.length input

/-- Drop an exact literal from the front of the input, or fail. -/
def dropLit : List Char → List Char → Option (List Char)
  | [], input => Option.some input
  | _ :: _, [] => Option.none
  | c :: cs, d :: input => if c = d then dropLit cs input else Option.none

/-- Whether the input starts with the given literal. -/
def startsWithLit (lit input : List Char) : Bool :=
  (dropLit lit input).isSome

/-- Match a literal token and skip the trailing whitespace, as lexy does after
every token. -/
def token (lit : List Char) (input : List Char) : Option (List Char) :=
  (dropLit lit input).bind skipWs

/-- Collect the continuation characters of an identifier. -/
def takeIdContinue : List Char → List Char × List Char
  | [] => ([], [])
  | c :: rest =>
    if isIdContinue c then
      let (a, r) := takeIdContinue rest
      (c :: a, r)
    else ([], c :: rest)

/-- The keywords reserved by `grammar::name` (`kw_builtin_types` and
`kw_builtin_stmts`). -/
def reservedWords : List Symbol :=
  ("int" :: "__clauf_print" :: "__clauf_assert" :: [])

/-- The production `grammar::name`: an identifier whose text is interned; the
reserved keywords are rejected (a committed error, as `identifier.reserve`).
Returns the symbol and the input after the token and its trailing whitespace. -/
def parseName (input : List Char) : Option (Symbol × List Char) :=
  match input with
  | [] => Option.none
  | c :: rest =>
    if isIdStart c then
      let (a, r) := takeIdContinue rest
      let s : Symbol := String.mk (c :: a)
      if reservedWords.contains s then Option.none
      else (skipWs r).map (fun r2 => (s, r2))
    else Option.none

/-- Value of one digit in the given base, or `none` when the character is not
a digit of that base. -/
def digitVal (base : Nat) (c : Char) : Option Nat :=
  let v : Nat :=
    if '0' ≤ c ∧ c ≤ '9' then c.toNat - '0'.toNat
    else if 'a' ≤ c ∧ c ≤ 'f' then c.toNat - 'a'.toNat + 10
    else if 'A' ≤ c ∧ c ≤ 'F' then c.toNat - 'A'.toNat + 10
    else 99
  if v < base then Option.some v else Option.none

/-- Accumulate digits with the optional tick separator of
`dsl::digits<Base>.sep(dsl::digit_sep_tick)`; a separator must be followed by
another digit of the base, otherwise the token errors. -/
def digitsGo (base : Nat) : List Char → Nat → Option (Nat × List Char)
  | '\x27' :: c :: rest, acc =>
    (match digitVal base c with
     | Option.some v => digitsGo base rest (acc * base + v)
     | Option.none => Option.none)
  | '\x27' :: [], _ => Option.none
  | c :: rest, acc =>
    (match digitVal base c with
     | Option.some v => digitsGo base rest (acc * base + v)
     | Option.none => Option.some (acc, c :: rest))
  | [], acc => Option.some (acc, [])

/-- Largest value of `std::uint64_t`; `dsl::integer<std::uint64_t>` errors on
any literal exceeding it. -/
def uint64Max : Nat := 2 ^ 64 - 1

/-- One `dsl::integer<std::uint64_t>(dsl::digits<Base>.sep(tick))` token:
at least one digit, tick separators ignored for the value, overflow checked
against the 64-bit unsigned range. -/
def intDigits (base : Nat) (input : List Char) : Option (Nat × List Char) :=
  match input with
  | [] => Option.none
  | c :: rest =>
    match digitVal base c with
    | Option.none => Option.none
    | Option.some v =>
      match digitsGo base rest v with
      | Option.none => Option.none
      | Option.some (value, r) =>
        if value ≤ uint64Max then Option.some (value, r) else Option.none

/-- The rule of `grammar::integer_constant_expr`: a peeked leading `0` selects
hex (`0x`/`0X`), binary (`0b`/`0B`) or octal digits, anything else decimal. -/
def parseIntRaw (input : List Char) : Option (Nat × List Char) :=
  match input with
  | '0' :: 'x' :: r => intDigits 16 r
  | '0' :: 'X' :: r => intDigits 16 r
  | '0' :: 'b' :: r => intDigits 2 r
  | '0' :: 'B' :: r => intDigits 2 r
  | '0' :: _ => intDigits 8 input
  | _ => intDigits 10 input

/-- The whole `integer_constant_expr` production including the value callback,
which decorates the literal with a fresh builtin int type. -/
def parseIntegerConstant (input : List Char) (st : CompilerState) : PResult Expr :=
  match parseIntRaw input with
  | Option.none => .error
  | Option.some (v, r) =>
    match skipWs r with
    | Option.none => .error
    | Option.some r2 => .ok (.integer_constant_expr .builtin_int v) r2 st

/-- The value callback of `grammar::identifier_expr`: look the name up in the
active scope; on failure report "unknown identifier", set the unit error flag
and still synthesize a reference node with no resolved declaration. -/
def identifierExprValue (st : CompilerState) (n : Symbol) : Expr × CompilerState :=
  match lookupSym st.local_symbols n with
  | Option.some d => (.identifier_expr .builtin_int (Option.some d), st)
  | Option.none =>
    (.identifier_expr .builtin_int Option.none,
     { st with errored := true, diags := .unknown_identifier n :: st.diags })

/-- The binary levels of `grammar::expr` that are plain left-associative
infix levels, in the order of the operand chain. -/
inductive LLvl where
  | mul | add | shift | rel | eql | band | bxor | bor | land | lor
deriving DecidableEq

/-- A binary operator payload: either a plain `binary_expr` operator or a
sequenced one. -/
inductive BinOrSeq where
  | bin (op : BinaryOp)
  | seq (op : SeqOp)
deriving DecidableEq

/-- Whether the first character of the input is the given character. -/
def headIs (input : List Char) (c : Char) : Bool :=
  match input with
  | d :: _ => d = c
  | [] => false

/-- Match the operator token of one left-associative level against the raw
input (before whitespace skipping).  Operator tokens are matched longest
first, which is how lexy's expression parser selects among the operators of
the whole expression; the explicit `dsl::not_followed_by` guards written in
the source for relational `<` and `>` appear as the `headIs` checks. -/
def rawLevelOp : LLvl → List Char → Option (BinOrSeq × List Char)
  | .mul, '*' :: r => Option.some (.bin .mul, r)
  | .mul, '/' :: r => Option.some (.bin .div, r)
  | .mul, '%' :: r => Option.some (.bin .rem, r)
  | .add, '+' :: r => Option.some (.bin .add, r)
  | .add, '-' :: r => Option.some (.bin .sub, r)
  | .shift, '<' :: '<' :: r => Option.some (.bin .shl, r)
  | .shift, '>' :: '>' :: r => Option.some (.bin .shr, r)
  | .rel, '<' :: '=' :: r => Option.some (.bin .le, r)
  | .rel, '>' :: '=' :: r => Option.some (.bin .ge, r)
  | .rel, '<' :: r =>
    if headIs r '<' then Option.none else Option.some (.bin .lt, r)
  | .rel, '>' :: r =>
    if headIs r '>' then Option.none else Option.some (.bin .gt, r)
  | .eql, '=' :: '=' :: r => Option.some (.bin .eq, r)
  | .eql, '!' :: '=' :: r => Option.some (.bin .ne, r)
  | .band, '&' :: r =>
    if headIs r '&' then Option.none else Option.some (.bin .band, r)
  | .bxor, '^' :: r => Option.some (.bin .bxor, r)
  | .bor, '|' :: r =>
    if headIs r '|' then Option.none else Option.some (.bin .bor, r)
  | .land, '&' :: '&' :: r => Option.some (.seq .land, r)
  | .lor, '|' :: '|' :: r => Option.some (.seq .lor, r)
  | _, _ => Option.none

/-- Match a level operator and skip the whitespace after the operator token. -/
def levelOp (lvl : LLvl) (input : List Char) : Option (BinOrSeq × List Char) :=
  match rawLevelOp lvl input with
  | Option.none => Option.none
  | Option.some (op, r) => (skipWs r).map (fun r2 => (op, r2))

/-- The operand level below a given left-associative level; `none` means the
operand is the unary level. -/
def nextLvl : LLvl → Option LLvl
  | .mul => Option.none
  | .add => Option.some .mul
  | .shift => Option.some .add
  | .rel => Option.some .shift
  | .eql => Option.some .rel
  | .band => Option.some .eql
  | .bxor => Option.some .band
  | .bor => Option.some .bxor
  | .land => Option.some .bor
  | .lor => Option.some .land

/-- Build the AST node for one binary operator application; the value callback
of `grammar::expr` decorates every node with a fresh builtin int type. -/
def mkBin (op : BinOrSeq) (l r : Expr) : Expr :=
  match op with
  | .bin o => .binary_expr .builtin_int o l r
  | .seq o => .sequenced_binary_expr .builtin_int o l r

/-- Result of parsing the ephemeral declarator tree.  The declarator value
callbacks only allocate in the transient `decl_tree` and never touch the
compiler state, so this parser is pure. -/
inductive DResult where
  | ok (d : Declarator) (rest : List Char) : DResult
  | error : DResult
  | out_of_fuel : DResult
deriving DecidableEq

mutual
/-- The `grammar::declarator` expression production: the atom is a name or a
parenthesised declarator, followed by postfix `()` function markers. -/
def parseDeclarator : Nat → List Char → DResult
  | 0, _ => .out_of_fuel
  | f + 1, input =>
    match input with
    | [] => .error
    | c :: _ =>
      if isIdStart c then
        match parseName input with
        | Option.none => .error
        | Option.some (n, r) => parseDeclaratorSuffix f (.name_declarator n) r
      else if c = '(' then
        match token ('(' :: []) input with
        | Option.none => .error
        | Option.some r =>
          match parseDeclarator f r with
          | .ok d r2 =>
            match token (')' :: []) r2 with
            | Option.none => .error
            | Option.some r3 => parseDeclaratorSuffix f d r3
          | .error => .error
          | .out_of_fuel => .out_of_fuel
      else .error

/-- The postfix operator loop of `declarator::function_declarator`: each
`()` wraps the declarator parsed so far in a `function_declarator`. -/
def parseDeclaratorSuffix : Nat → Declarator → List Char → DResult
  | 0, _, _ => .out_of_fuel
  | f + 1, d, input =>
    match input with
    | '(' :: r =>
      match skipWs r with
      | Option.none => .error
      | Option.some r2 =>
        match token (')' :: []) r2 with
        | Option.none => .error
        | Option.some r3 => parseDeclaratorSuffix f (.function_declarator d) r3
    | _ => .ok d input
end

/-- The value callback of `grammar::declaration`: resolve each parsed
declarator.  A `name_declarator` becomes a `variable_decl` with a freshly
allocated int type; both `function_declarator` cases reach a `CLAUF_TODO`
("create function declaration" when the child is a name, "generate error:
function cannot return function" otherwise).  `CLAUF_TODO` is modelled from
the spec (clauf/assert.hpp is not among the sources): section 9 describes
these sites as hard-abort placeholders, so the result is `none` = hard abort. -/
def resolveDeclaration (st : CompilerState) :
    List Declarator → Option (List Decl × CompilerState)
  | [] => Option.some ([], st)
  | d :: ds =>
    match d with
    | .name_declarator n =>
      let var : Decl := .variable_decl st.next_id n .builtin_int
      match resolveDeclaration { st with next_id := st.next_id + 1 } ds with
      | Option.some (rest, st') => Option.some (var :: rest, st')
      | Option.none => Option.none
    | .function_declarator child =>
      match child with
      | .name_declarator _ => Option.none
      | _ => Option.none

/-- One iteration of the loop in `grammar::decl_stmt`'s value callback: bind
the declaration with `insert_or_shadow`; when the binding shadows an existing
one, report "duplicate local declaration" and set the unit error flag, keeping
the new binding installed (last wins). -/
def bindOne (st : CompilerState) (d : Decl) : CompilerState :=
  match insertOrShadow st.local_symbols d.name d with
  | (Option.some _, tbl) =>
    { st with
      local_symbols := tbl,
      errored := true,
      diags := .duplicate_local_declaration d.name :: st.diags }
  | (Option.none, tbl) => { st with local_symbols := tbl }

/-- The whole loop of `grammar::decl_stmt`'s value callback, in declaration
order. -/
def bindDecls (st : CompilerState) : List Decl → CompilerState
  | [] => st
  | d :: ds => bindDecls (bindOne st d) ds

/-- The value callback of `grammar::function_definition`: a function
declarator directly wrapping a name yields a `function_decl` whose type wraps
the parsed return type; every other declarator shape reaches the
`CLAUF_TODO("generator error: not a function definition")` hard abort,
modelled as `none`. -/
def functionDefinitionValue (st : CompilerState) (ty : Ty) (d : Declarator)
    (body : Stmt) : Option (Decl × CompilerState) :=
  match d with
  | .function_declarator child =>
    match child with
    | .name_declarator n =>
      Option.some (.function_decl n (.function_type ty) body, st)
    | _ => Option.none
  | _ => Option.none

/-- Keyword literals of the grammar. -/
def kwInt : List Char := "int".toList

/-- Literal of the `__clauf_print` intrinsic keyword. -/
def kwPrint : List Char := "__clauf_print".toList

/-- Literal of the `__clauf_assert` intrinsic keyword. -/
def kwAssert : List Char := "__clauf_assert".toList

/-- Result of parsing a comma-separated declarator list (pure, like the
declarator parser itself). -/
inductive DsResult where
  | ok (ds : List Declarator) (rest : List Char) : DsResult
  | error : DsResult
  | out_of_fuel : DsResult
deriving DecidableEq

/-- The `grammar::declarator_list` production: `dsl::list` of declarators
separated by commas. -/
def parseDeclaratorList : Nat → List Declarator → List Char → DsResult
  | 0, _, _ => .out_of_fuel
  | f + 1, acc, input =>
    match parseDeclarator f input with
    | .ok d r =>
      (match r with
       | ',' :: r2 =>
         (match skipWs r2 with
          | Option.none => .error
          | Option.some r3 => parseDeclaratorList f (acc ++ (d :: [])) r3)
       | _ => .ok (acc ++ (d :: [])) r)
    | .error => .error
    | .out_of_fuel => .out_of_fuel

/-- The `grammar::declaration` production (the caller has already seen the
`int` branch condition): type specifier, declarator list, semicolon, then the
resolution callback. -/
def parseDeclarationProd (fuel : Nat) (input : List Char) (st : CompilerState) :
    PResult (List Decl) :=
  match token kwInt input with
  | Option.none => .error
  | Option.some r =>
    match parseDeclaratorList fuel [] r with
    | .ok ds r2 =>
      (match token (';' :: []) r2 with
       | Option.none => .error
       | Option.some r3 =>
         (match resolveDeclaration st ds with
          | Option.some (decls, st') => .ok decls r3 st'
          | Option.none => .todo_abort))
    | .error => .error
    | .out_of_fuel => .out_of_fuel

/-- The `grammar::decl_stmt` production: the declaration list is wrapped in a
`decl_stmt` node and every declaration is bound into the active scope. -/
def parseDeclStmt (fuel : Nat) (input : List Char) (st : CompilerState) :
    PResult Stmt :=
  match parseDeclarationProd fuel input st with
  | .ok decls r st' => .ok (.decl_stmt decls) r (bindDecls st' decls)
  | .error => .error
  | .todo_abort => .todo_abort
  | .out_of_fuel => .out_of_fuel

mutual
/-- The atom of `grammar::expr`: a parenthesised expression, an identifier
expression, or (the `else_` branch) an integer constant. -/
def parseAtom : Nat → List Char → CompilerState → PResult Expr
  | 0, _, _ => .out_of_fuel
  | f + 1, input, st =>
    match input with
    | [] => .error
    | '(' :: r =>
      (match skipWs r with
       | Option.none => .error
       | Option.some r2 =>
         (match parseExprTop f r2 st with
          | .ok e r3 st' =>
            (match token (')' :: []) r3 with
             | Option.none => .error
             | Option.some r4 => .ok e r4 st')
          | .error => .error
          | .todo_abort => .todo_abort
          | .out_of_fuel => .out_of_fuel))
    | c :: _ =>
      if isIdStart c then
        match parseName input with
        | Option.none => .error
        | Option.some (n, r) =>
          .ok (identifierExprValue st n).1 r (identifierExprValue st n).2
      else parseIntegerConstant input st

/-- The prefix level `expr::unary`. -/
def parseUnary : Nat → List Char → CompilerState → PResult Expr
  | 0, _, _ => .out_of_fuel
  | f + 1, input, st =>
    match input with
    | '+' :: r => parseUnaryTail f .plus r st
    | '-' :: r => parseUnaryTail f .neg r st
    | '~' :: r => parseUnaryTail f .bnot r st
    | '!' :: r => parseUnaryTail f .lnot r st
    | _ => parseAtom f input st

/-- Skip the whitespace after a prefix operator token and parse its operand. -/
def parseUnaryTail : Nat → UnaryOp → List Char → CompilerState → PResult Expr
  | 0, _, _, _ => .out_of_fuel
  | f + 1, op, r, st =>
    match skipWs r with
    | Option.none => .error
    | Option.some r2 =>
      match parseUnary f r2 st with
      | .ok c r3 st' => .ok (.unary_expr .builtin_int op c) r3 st'
      | .error => .error
      | .todo_abort => .todo_abort
      | .out_of_fuel => .out_of_fuel

/-- One plain left-associative infix level: parse the operand of the level
below, then fold operators of this level to the left. -/
def parseLeftLevel : Nat → LLvl → List Char → CompilerState → PResult Expr
  | 0, _, _, _ => .out_of_fuel
  | f + 1, lvl, input, st =>
    match
      (match nextLvl lvl with
       | Option.none => parseUnary f input st
       | Option.some l => parseLeftLevel f l input st) with
    | .ok e r st' => parseLeftOps f lvl e r st'
    | .error => .error
    | .todo_abort => .todo_abort
    | .out_of_fuel => .out_of_fuel

/-- The operator loop of a left-associative level. -/
def parseLeftOps : Nat → LLvl → Expr → List Char → CompilerState → PResult Expr
  | 0, _, _, _, _ => .out_of_fuel
  | f + 1, lvl, acc, input, st =>
    match levelOp lvl input with
    | Option.none => .ok acc input st
    | Option.some (op, r) =>
      match
        (match nextLvl lvl with
         | Option.none => parseUnary f r st
         | Option.some l => parseLeftLevel f l r st) with
      | .ok rhs r2 st' => parseLeftOps f lvl (mkBin op acc rhs) r2 st'
      | .error => .error
      | .todo_abort => .todo_abort
      | .out_of_fuel => .out_of_fuel

/-- The right-associative `expr::conditional` level, whose operator is
`"?" >> recurse<expr> + ":"`. -/
def parseConditional : Nat → List Char → CompilerState → PResult Expr
  | 0, _, _ => .out_of_fuel
  | f + 1, input, st =>
    match parseLeftLevel f .lor input st with
    | .ok c r st' =>
      (match r with
       | '?' :: r2 =>
         (match skipWs r2 with
          | Option.none => .error
          | Option.some r3 =>
            (match parseExprTop f r3 st' with
             | .ok t r4 st2 =>
               (match r4 with
                | ':' :: r5 =>
                  (match skipWs r5 with
                   | Option.none => .error
                   | Option.some r6 =>
                     (match parseConditional f r6 st2 with
                      | .ok e2 r7 st3 =>
                        .ok (.conditional_expr .builtin_int c t e2) r7 st3
                      | .error => .error
                      | .todo_abort => .todo_abort
                      | .out_of_fuel => .out_of_fuel))
                | _ => .error)
             | .error => .error
             | .todo_abort => .todo_abort
             | .out_of_fuel => .out_of_fuel))
       | _ => .ok c r st')
    | .error => .error
    | .todo_abort => .todo_abort
    | .out_of_fuel => .out_of_fuel

/-- The right-associative `expr::assignment` level. -/
def parseAssign : Nat → List Char → CompilerState → PResult Expr
  | 0, _, _ => .out_of_fuel
  | f + 1, input, st =>
    match parseConditional f input st with
    | .ok l r st' =>
      (match r with
       | '=' :: r2 =>
         (match skipWs r2 with
          | Option.none => .error
          | Option.some r3 =>
            (match parseAssign f r3 st' with
             | .ok rhs r4 st2 =>
               .ok (.assignment_expr .builtin_int .none l rhs) r4 st2
             | .error => .error
             | .todo_abort => .todo_abort
             | .out_of_fuel => .out_of_fuel))
       | _ => .ok l r st')
    | .error => .error
    | .todo_abort => .todo_abort
    | .out_of_fuel => .out_of_fuel

/-- The whole `grammar::expr` production; the outermost operation is the
right-associative sequenced comma. -/
def parseExprTop : Nat → List Char → CompilerState → PResult Expr
  | 0, _, _ => .out_of_fuel
  | f + 1, input, st =>
    match parseAssign f input st with
    | .ok l r st' =>
      (match r with
       | ',' :: r2 =>
         (match skipWs r2 with
          | Option.none => .error
          | Option.some r3 =>
            (match parseExprTop f r3 st' with
             | .ok rhs r4 st2 =>
               .ok (.sequenced_binary_expr .builtin_int .comma l rhs) r4 st2
             | .error => .error
             | .todo_abort => .todo_abort
             | .out_of_fuel => .out_of_fuel))
       | _ => .ok l r st')
    | .error => .error
    | .todo_abort => .todo_abort
    | .out_of_fuel => .out_of_fuel

/-- The `grammar::stmt` production with its branch order: block, intrinsic,
declaration, and the `else_` expression statement. -/
def parseStmt : Nat → List Char → CompilerState → PResult Stmt
  | 0, _, _ => .out_of_fuel
  | f + 1, input, st =>
    match input with
    | '{' :: _ => parseBlockStmt f input st
    | _ =>
      if startsWithLit kwPrint input then
        match token kwPrint input with
        | Option.none => .error
        | Option.some r => parseBuiltinTail f .print r st
      else if startsWithLit kwAssert input then
        match token kwAssert input with
        | Option.none => .error
        | Option.some r => parseBuiltinTail f .assert r st
      else if startsWithLit kwInt input then
        parseDeclStmt f input st
      else
        match parseExprTop f input st with
        | .ok e r st' =>
          (match token (';' :: []) r with
           | Option.none => .error
           | Option.some r2 => .ok (.expr_stmt e) r2 st')
        | .error => .error
        | .todo_abort => .todo_abort
        | .out_of_fuel => .out_of_fuel

/-- The tail of `grammar::builtin_stmt` after its keyword: one expression
operand and a semicolon. -/
def parseBuiltinTail : Nat → BuiltinKind → List Char → CompilerState → PResult Stmt
  | 0, _, _, _ => .out_of_fuel
  | f + 1, b, input, st =>
    match parseExprTop f input st with
    | .ok e r st' =>
      (match token (';' :: []) r with
       | Option.none => .error
       | Option.some r2 => .ok (.builtin_stmt b e) r2 st')
    | .error => .error
    | .todo_abort => .todo_abort
    | .out_of_fuel => .out_of_fuel

/-- The statement loop of `block_stmt`'s `curly_bracketed.opt_list`. -/
def parseStmts : Nat → List Stmt → List Char → CompilerState → PResult (List Stmt)
  | 0, _, _, _ => .out_of_fuel
  | f + 1, acc, input, st =>
    match input with
    | '}' :: r =>
      (match skipWs r with
       | Option.none => .error
       | Option.some r2 => .ok acc r2 st)
    | _ =>
      match parseStmt f input st with
      | .ok s r st' => parseStmts f (acc ++ (s :: [])) r st'
      | .error => .error
      | .todo_abort => .todo_abort
      | .out_of_fuel => .out_of_fuel

/-- The `grammar::block_stmt` production. -/
def parseBlockStmt : Nat → List Char → CompilerState → PResult Stmt
  | 0, _, _ => .out_of_fuel
  | f + 1, input, st =>
    match token ('{' :: []) input with
    | Option.none => .error
    | Option.some r =>
      match parseStmts f [] r st with
      | .ok ss r2 st' => .ok (.block_stmt ss) r2 st'
      | .error => .error
      | .todo_abort => .todo_abort
      | .out_of_fuel => .out_of_fuel
end

/-- The `grammar::function_definition` production: type specifier, declarator,
the `dsl::effect<function_start>` that clears the per-function symbol table,
the body block, and the value callback. -/
def parseFunctionDefinition : Nat → List Char → CompilerState → PResult Decl
  | 0, _, _ => .out_of_fuel
  | f + 1, input, st =>
    match token kwInt input with
    | Option.none => .error
    | Option.some r =>
      match parseDeclarator f r with
      | .ok d r2 =>
        (match parseBlockStmt f r2 { st with local_symbols := [] } with
         | .ok body r3 st' =>
           (match functionDefinitionValue st' .builtin_int d body with
            | Option.some (decl, st2) => .ok decl r3 st2
            | Option.none => .todo_abort)
         | .error => .error
         | .todo_abort => .todo_abort
         | .out_of_fuel => .out_of_fuel)
      | .error => .error
      | .out_of_fuel => .out_of_fuel

/-- The non-empty function definition list of `grammar::translation_unit`,
terminated by the end of input. -/
def parseTUList : Nat → List Decl → List Char → CompilerState → PResult (List Decl)
  | 0, _, _, _ => .out_of_fuel
  | f + 1, acc, input, st =>
    match parseFunctionDefinition f input st with
    | .ok d r st' =>
      (match r with
       | [] => .ok (acc ++ (d :: [])) [] st'
       | _ => parseTUList f (acc ++ (d :: [])) r st')
    | .error => .error
    | .todo_abort => .todo_abort
    | .out_of_fuel => .out_of_fuel

/-- The root AST node built by `translation_unit`'s value callback. -/
structure TranslationUnit where
  declarations : List Decl

/-- Outcome of `clauf::compile`: a returned optional AST, a `CLAUF_TODO`
process abort, or the fuel artefact of the embedding. -/
inductive CompileOutcome where
  | returns (result : Option TranslationUnit) : CompileOutcome
  | aborted : CompileOutcome
  | out_of_fuel : CompileOutcome

/-- The fresh `compiler_state` at the start of `clauf::compile`. -/
def initialState : CompilerState :=
  { local_symbols := [], errored := false, diags := [], next_id := 0 }

/-- The entry point `clauf::compile`: run the parse; return an absent result
when the parse failed or the unit error flag is set, and only then install the
arena root and return the AST. -/
def compileWith (fuel : Nat) (input : List Char) : CompileOutcome :=
  match skipWs input with
  | Option.none => .returns Option.none
  | Option.some r =>
    match parseTUList fuel [] r initialState with
    | .ok decls _ st =>
      if st.errored then .returns Option.none
      else .returns (Option.some ⟨decls⟩)
    | .error => .returns Option.none
    | .todo_abort => .aborted
    | .out_of_fuel => .out_of_fuel

/-- A fuel bound that is comfortably sufficient for the concrete programs
considered below. -/
def fuelFor (input : List Char) : Nat := 32 * input.length + 64

/-- Run `clauf::compile` on a source string. -/
def compile (s : String) : CompileOutcome :=
  compileWith (fuelFor s.toList) s.toList

/-- Run the expression production on a string from a given state. -/
def runExprFrom (st : CompilerState) (s : String) : PResult Expr :=
  match skipWs s.toList with
  | Option.some r => parseExprTop (fuelFor s.toList) r st
  | Option.none => .error

/-- Run the expression production on a string from the initial state. -/
def runExpr (s : String) : PResult Expr := runExprFrom initialState s

/-- Run the statement production on a string from a given state. -/
def runStmtFrom (st : CompilerState) (s : String) : PResult Stmt :=
  match skipWs s.toList with
  | Option.some r => parseStmt (fuelFor s.toList) r st
  | Option.none => .error

/-- Run the translation unit list on a string from the initial state,
exposing the final parse state (diagnostics, error flag, symbol table). -/
def runTU (s : String) : PResult (List Decl) :=
  match skipWs s.toList with
  | Option.some r => parseTUList (fuelFor s.toList) [] r initialState
  | Option.none => .error

/-- A declaration node is a variable declaration. -/
def IsVarDecl (d : Decl) : Prop :=
  ∃ i n t, d = Decl.variable_decl i n t

/-- Evolution of the symbol table across one parsing step: the new table
extends the old one at the front, and every newly installed binding is a
variable declaration. -/
def TableEv (st st' : CompilerState) : Prop :=
  ∃ nb, st'.local_symbols = nb ++ st.local_symbols ∧ ∀ p ∈ nb, IsVarDecl p.2

/-- Evolution of the diagnostics across one parsing step: new error-severity
diagnostics are prepended, and the unit error flag is set exactly when it was
already set or a new diagnostic was recorded. -/
def DiagEv (st st' : CompilerState) : Prop :=
  ∃ nd, st'.diags = nd ++ st.diags ∧ st'.errored = (st.errored || !nd.isEmpty)

/-- Combined state evolution for the statement- and expression-level parsers
(the parsers below the per-function scope reset). -/
def Ev (st st' : CompilerState) : Prop :=
  TableEv st st' ∧ DiagEv st st'

/-- Concrete source fragments used in the theorems below. -/
def srcAddMul : String := "1 + 2 * 3"

/-- Source with multiplication to the left of addition. -/
def srcMulAdd : String := "1 * 2 + 3"

/-- Source exercising left associativity of the additive level. -/
def srcSubAdd : String := "1 - 2 + 3"

/-- Source exercising left associativity of the multiplicative level. -/
def srcDivDiv : String := "8 / 4 / 2"

/-- Source exercising right associativity of assignment. -/
def srcAssignChain : String := "a = b = 1"

/-- Source with a single relational less-than. -/
def srcLess : String := "1 < 2"

/-- Source with a shift-left operator. -/
def srcShift : String := "a << 1"

/-- Source chaining two relational less-than operators. -/
def srcLessChain : String := "1 < 2 < 3"

/-- Hexadecimal literal. -/
def srcHex : String := "0x1F"

/-- Binary literal. -/
def srcBin : String := "0b101"

/-- Octal literal. -/
def srcOct : String := "017"

/-- Decimal literal with a tick digit separator. -/
def srcTick : String := "1\x27000"

/-- The largest 64-bit unsigned value, in decimal. -/
def srcU64Max : String := "18446744073709551615"

/-- One more than the largest 64-bit unsigned value, in decimal. -/
def srcU64Over : String := "18446744073709551616"

/-- A lone variable declaration statement. -/
def srcDeclX : String := "int x;"

/-- The same declaration with a parenthesised declarator. -/
def srcDeclParenX : String := "int (x);"

/-- An empty function definition. -/
def srcFnEmpty : String := "int f() \x7b \x7d"

/-- A function whose body declares a function (reaches the
`CLAUF_TODO("create function declaration")` placeholder). -/
def srcInnerFnDecl : String := "int f() \x7b int g(); \x7d"

/-- A function whose body declares a function returning a function (reaches
the `CLAUF_TODO` for "function cannot return function"). -/
def srcFnRetFn : String := "int f() \x7b int g()(); \x7d"

/-- A top-level definition whose declarator is a plain name (reaches the
`CLAUF_TODO` for "not a function definition"). -/
def srcNotFnDef : String := "int x \x7b \x7d"

/-- A body referencing two unknown identifiers. -/
def srcTwoUnknown : String := "int f() \x7b y; z; \x7d"

/-- A body declaring the same name twice in one scope. -/
def srcDupDecl : String := "int f() \x7b int x; int x; \x7d"

/-- A declaration inside a nested block used after the block. -/
def srcNestedUse : String := "int f() \x7b \x7b int x; \x7d x; \x7d"

/-- A duplicate declaration split across block nesting. -/
def srcNestedDup : String := "int f() \x7b int x; \x7b int x; \x7d \x7d"

/-- Two functions, the second referencing a name declared in the first. -/
def srcCrossFn : String := "int f() \x7b int x; \x7d int g() \x7b x; \x7d"

/-- A function whose body references the function's own name. -/
def srcSelfRef : String := "int f() \x7b f; \x7d"

/-- A block statement declaring one variable, used to exercise the block
parser directly. -/
def srcBlockX : String := "\x7b int x; \x7d"

/-- Identifier texts used by the concrete expectations. -/
def nmA : String := "a"

/-- Identifier text b. -/
def nmB : String := "b"

/-- Identifier text f. -/
def nmF : String := "f"

/-- Identifier text g. -/
def nmG : String := "g"

/-- Identifier text x. -/
def nmX : String := "x"

/-- Identifier text y. -/
def nmY : String := "y"

/-- Identifier text z. -/
def nmZ : String := "z"

/-- The first variable declaration of `x` allocated in a compilation. -/
def varX0 : Decl := .variable_decl 0 nmX .builtin_int

/-- The second variable declaration of `x` allocated in a compilation. -/
def varX1 : Decl := .variable_decl 1 nmX .builtin_int

/-- The function type `int()`. -/
def fnTyInt : Ty := .function_type .builtin_int

/-- An identifier reference with no resolved declaration. -/
def idNone : Expr := .identifier_expr .builtin_int Option.none

theorem tableEv_refl (st : CompilerState) : TableEv st st :=
  ⟨[], by simp, by simp⟩

theorem diagEv_refl (st : CompilerState) : DiagEv st st :=
  ⟨[], by simp, by simp⟩

theorem ev_refl (st : CompilerState) : Ev st st :=
  ⟨tableEv_refl st, diagEv_refl st⟩

theorem tableEv_trans {s1 s2 s3 : CompilerState} (h1 : TableEv s1 s2)
    (h2 : TableEv s2 s3) : TableEv s1 s3 := by
  obtain ⟨nb1, e1, v1⟩ := h1
  obtain ⟨nb2, e2, v2⟩ := h2
  refine ⟨nb2 ++ nb1, by rw [e2, e1, List.append_assoc], ?_⟩
  intro p hp
  rcases List.mem_append.mp hp with h | h
  · exact v2 p h
  · exact v1 p h

theorem diagEv_trans {s1 s2 s3 : CompilerState} (h1 : DiagEv s1 s2)
    (h2 : DiagEv s2 s3) : DiagEv s1 s3 := by
  obtain ⟨d1, e1, f1⟩ := h1
  obtain ⟨d2, e2, f2⟩ := h2
  refine ⟨d2 ++ d1, by rw [e2, e1, List.append_assoc], ?_⟩
  rw [f2, f1]
  cases d1 <;> cases d2 <;> cases s1.errored <;> simp

theorem ev_trans {s1 s2 s3 : CompilerState} (h1 : Ev s1 s2) (h2 : Ev s2 s3) :
    Ev s1 s3 :=
  ⟨tableEv_trans h1.1 h2.1, diagEv_trans h1.2 h2.2⟩

theorem ev_identifierExprValue (st : CompilerState) (n : Symbol) :
    Ev st (identifierExprValue st n).2 := by
  unfold identifierExprValue
  cases h : lookupSym st.local_symbols n with
  | none =>
    simp only [h]
    exact ⟨⟨[], by simp, by simp⟩,
      ⟨.unknown_identifier n :: [], by simp, by simp⟩⟩
  | some d =>
    simp only [h]
    exact ev_refl st

theorem resolve_state (ds : List Declarator) :
    ∀ st decls st', resolveDeclaration st ds = Option.some (decls, st') →
      st'.local_symbols = st.local_symbols ∧ st'.diags = st.diags ∧
      st'.errored = st.errored := by
  induction ds with
  | nil =>
    intro st decls st' h
    simp only [resolveDeclaration, Option.some.injEq, Prod.mk.injEq] at h
    rw [← h.2]
    exact ⟨rfl, rfl, rfl⟩
  | cons d ds ih =>
    intro st decls st' h
    cases d with
    | name_declarator n =>
      simp only [resolveDeclaration] at h
      cases hr : resolveDeclaration { st with next_id := st.next_id + 1 } ds with
      | none => rw [hr] at h; exact absurd h (by simp)
      | some p =>
        rw [hr] at h
        simp only [Option.some.injEq, Prod.mk.injEq] at h
        obtain ⟨hs, hd, he⟩ := ih _ p.1 p.2 (by rw [hr])
        rw [← h.2]
        exact ⟨hs, hd, he⟩
    | function_declarator child =>
      cases child <;> simp [resolveDeclaration] at h

theorem resolve_vars (ds : List Declarator) :
    ∀ st decls st', resolveDeclaration st ds = Option.some (decls, st') →
      ∀ d ∈ decls, IsVarDecl d := by
  induction ds with
  | nil =>
    intro st decls st' h
    simp only [resolveDeclaration, Option.some.injEq, Prod.mk.injEq] at h
    rw [← h.1]
    intro d hd
    exact absurd hd (by simp)
  | cons d ds ih =>
    intro st decls st' h
    cases d with
    | name_declarator n =>
      simp only [resolveDeclaration] at h
      cases hr : resolveDeclaration { st with next_id := st.next_id + 1 } ds with
      | none => rw [hr] at h; exact absurd h (by simp)
      | some p =>
        rw [hr] at h
        simp only [Option.some.injEq, Prod.mk.injEq] at h
        rw [← h.1]
        intro d hd
        rcases List.mem_cons.mp hd with hh | hh
        · exact ⟨st.next_id, n, .builtin_int, hh⟩
        · exact ih _ p.1 p.2 (by rw [hr]) d hh
    | function_declarator child =>
      cases child <;> simp [resolveDeclaration] at h

theorem ev_bindOne (st : CompilerState) (d : Decl) (hv : IsVarDecl d) :
    Ev st (bindOne st d) := by
  unfold bindOne insertOrShadow
  cases h : lookupSym st.local_symbols d.name with
  | none =>
    simp only [h]
    refine ⟨⟨(d.name, d) :: [], by simp, ?_⟩, ⟨[], by simp, by simp⟩⟩
    intro p hp
    rcases List.mem_singleton.mp hp with rfl
    exact hv
  | some prev =>
    simp only [h]
    refine ⟨⟨(d.name, d) :: [], by simp, ?_⟩,
      ⟨.duplicate_local_declaration d.name :: [], by simp, by simp⟩⟩
    intro p hp
    rcases List.mem_singleton.mp hp with rfl
    exact hv

theorem ev_bindDecls (ds : List Decl) :
    ∀ st, (∀ d ∈ ds, IsVarDecl d) → Ev st (bindDecls st ds) := by
  induction ds with
  | nil => intro st _; exact ev_refl st
  | cons d ds ih =>
    intro st hv
    exact ev_trans (ev_bindOne st d (hv d (by simp)))
      (ih _ (fun d' hd' => hv d' (List.mem_cons_of_mem _ hd')))

theorem ev_parseDeclarationProd (fuel : Nat) (input : List Char)
    (st : CompilerState) (decls : List Decl) (r : List Char)
    (st' : CompilerState)
    (h : parseDeclarationProd fuel input st = .ok decls r st') :
    Ev st st' ∧ ∀ d ∈ decls, IsVarDecl d := by
  unfold parseDeclarationProd at h
  split at h
  · exact absurd h (by simp)
  · split at h
    · split at h
      · exact absurd h (by simp)
      · split at h
        · rename_i heq
          cases h
          obtain ⟨hls, hdg, her⟩ := resolve_state _ _ _ _ heq
          exact ⟨⟨⟨[], by simp [hls], by simp⟩, ⟨[], by simp [hdg], by simp [her]⟩⟩,
            resolve_vars _ _ _ _ heq⟩
        · exact absurd h (by simp)
    · exact absurd h (by simp)
    · exact absurd h (by simp)

theorem ev_parseDeclStmt (fuel : Nat) (input : List Char) (st : CompilerState)
    (s : Stmt) (r : List Char) (st' : CompilerState)
    (h : parseDeclStmt fuel input st = .ok s r st') : Ev st st' := by
  unfold parseDeclStmt at h
  split at h
  · rename_i decls r0 st0 heq
    obtain ⟨hev, hvars⟩ := ev_parseDeclarationProd _ _ _ _ _ _ heq
    cases h
    exact ev_trans hev (ev_bindDecls _ _ hvars)
  · exact absurd h (by simp)
  · exact absurd h (by simp)
  · exact absurd h (by simp)

theorem ev_parseIntegerConstant (input : List Char) (st : CompilerState)
    (a : Expr) (r : List Char) (st' : CompilerState)
    (h : parseIntegerConstant input st = .ok a r st') : st' = st := by
  unfold parseIntegerConstant at h
  split at h
  · exact PResult.noConfusion h
  · split at h
    · exact PResult.noConfusion h
    · cases h
      rfl

theorem parse_ev : ∀ fuel : Nat,
    (∀ input st a r st', parseAtom fuel input st = .ok a r st' → Ev st st') ∧
    (∀ input st a r st', parseUnary fuel input st = .ok a r st' → Ev st st') ∧
    (∀ op input st a r st', parseUnaryTail fuel op input st = .ok a r st' → Ev st st') ∧
    (∀ lvl input st a r st', parseLeftLevel fuel lvl input st = .ok a r st' → Ev st st') ∧
    (∀ lvl acc input st a r st', parseLeftOps fuel lvl acc input st = .ok a r st' → Ev st st') ∧
    (∀ input st a r st', parseConditional fuel input st = .ok a r st' → Ev st st') ∧
    (∀ input st a r st', parseAssign fuel input st = .ok a r st' → Ev st st') ∧
    (∀ input st a r st', parseExprTop fuel input st = .ok a r st' → Ev st st') ∧
    (∀ input st a r st', parseStmt fuel input st = .ok a r st' → Ev st st') ∧
    (∀ b input st a r st', parseBuiltinTail fuel b input st = .ok a r st' → Ev st st') ∧
    (∀ acc input st a r st', parseStmts fuel acc input st = .ok a r st' → Ev st st') ∧
    (∀ input st a r st', parseBlockStmt fuel input st = .ok a r st' → Ev st st') := by
  intro fuel
  induction fuel with
  | zero =>
    refine ⟨?_, ?_, ?_, ?_, ?_, ?_, ?_, ?_, ?_, ?_, ?_, ?_⟩ <;>
      · intros
        rename_i h
        simp [parseAtom, parseUnary, parseUnaryTail, parseLeftLevel, parseLeftOps,
          parseConditional, parseAssign, parseExprTop, parseStmt, parseBuiltinTail,
          parseStmts, parseBlockStmt] at h
  | succ f ih =>
    obtain ⟨ihAtom, ihUnary, ihUTail, ihLevel, ihOps, ihCond, ihAsg, ihTop,
      ihStmt, ihBTail, ihStmts, ihBlock⟩ := ih
    refine ⟨?_, ?_, ?_, ?_, ?_, ?_, ?_, ?_, ?_, ?_, ?_, ?_⟩
    · -- parseAtom
      intro input st a r st' h
      simp only [parseAtom] at h
      split at h
      · exact PResult.noConfusion h
      · split at h
        · exact PResult.noConfusion h
        · split at h
          · rename_i e r3 st2 heq
            split at h
            · exact PResult.noConfusion h
            · cases h
              exact ihTop _ _ _ _ _ heq
          · exact PResult.noConfusion h
          · exact PResult.noConfusion h
          · exact PResult.noConfusion h
      · split at h
        · split at h
          · exact PResult.noConfusion h
          · cases h
            exact ev_identifierExprValue st _
        · have hst := ev_parseIntegerConstant _ _ _ _ _ h
          subst hst
          exact ev_refl _
    · -- parseUnary
      intro input st a r st' h
      simp only [parseUnary] at h
      split at h
      · exact ihUTail _ _ _ _ _ _ h
      · exact ihUTail _ _ _ _ _ _ h
      · exact ihUTail _ _ _ _ _ _ h
      · exact ihUTail _ _ _ _ _ _ h
      · exact ihAtom _ _ _ _ _ h
    · -- parseUnaryTail
      intro op input st a r st' h
      simp only [parseUnaryTail] at h
      split at h
      · exact PResult.noConfusion h
      · split at h
        · rename_i c r3 st2 heq
          cases h
          exact ihUnary _ _ _ _ _ heq
        · exact PResult.noConfusion h
        · exact PResult.noConfusion h
        · exact PResult.noConfusion h
    · -- parseLeftLevel
      intro lvl input st a r st' h
      simp only [parseLeftLevel] at h
      split at h
      · rename_i e r0 st2 heq
        have hev : Ev st st2 := by
          cases hn : nextLvl lvl with
          | none => rw [hn] at heq; exact ihUnary _ _ _ _ _ heq
          | some l => rw [hn] at heq; exact ihLevel _ _ _ _ _ _ heq
        exact ev_trans hev (ihOps _ _ _ _ _ _ _ h)
      · exact PResult.noConfusion h
      · exact PResult.noConfusion h
      · exact PResult.noConfusion h
    · -- parseLeftOps
      intro lvl acc input st a r st' h
      simp only [parseLeftOps] at h
      split at h
      · cases h
        exact ev_refl _
      · split at h
        · rename_i rhs r2 st2 heq
          have hev : Ev st st2 := by
            cases hn : nextLvl lvl with
            | none => rw [hn] at heq; exact ihUnary _ _ _ _ _ heq
            | some l => rw [hn] at heq; exact ihLevel _ _ _ _ _ _ heq
          exact ev_trans hev (ihOps _ _ _ _ _ _ _ h)
        · exact PResult.noConfusion h
        · exact PResult.noConfusion h
        · exact PResult.noConfusion h
    · -- parseConditional
      intro input st a r st' h
      simp only [parseConditional] at h
      split at h
      · rename_i c r0 st2 heq1
        split at h
        · split at h
          · exact PResult.noConfusion h
          · split at h
            · rename_i t r4 st3 heq2
              split at h
              · split at h
                · exact PResult.noConfusion h
                · split at h
                  · rename_i e2 r7 st4 heq3
                    cases h
                    exact ev_trans (ihLevel _ _ _ _ _ _ heq1)
                      (ev_trans (ihTop _ _ _ _ _ heq2) (ihCond _ _ _ _ _ heq3))
                  · exact PResult.noConfusion h
                  · exact PResult.noConfusion h
                  · exact PResult.noConfusion h
              · exact PResult.noConfusion h
            · exact PResult.noConfusion h
            · exact PResult.noConfusion h
            · exact PResult.noConfusion h
        · cases h
          exact ihLevel _ _ _ _ _ _ heq1
      · exact PResult.noConfusion h
      · exact PResult.noConfusion h
      · exact PResult.noConfusion h
    · -- parseAssign
      intro input st a r st' h
      simp only [parseAssign] at h
      split at h
      · rename_i l r0 st2 heq1
        split at h
        · split at h
          · exact PResult.noConfusion h
          · split at h
            · rename_i rhs r4 st3 heq2
              cases h
              exact ev_trans (ihCond _ _ _ _ _ heq1) (ihAsg _ _ _ _ _ heq2)
            · exact PResult.noConfusion h
            · exact PResult.noConfusion h
            · exact PResult.noConfusion h
        · cases h
          exact ihCond _ _ _ _ _ heq1
      · exact PResult.noConfusion h
      · exact PResult.noConfusion h
      · exact PResult.noConfusion h
    · -- parseExprTop
      intro input st a r st' h
      simp only [parseExprTop] at h
      split at h
      · rename_i l r0 st2 heq1
        split at h
        · split at h
          · exact PResult.noConfusion h
          · split at h
            · rename_i rhs r4 st3 heq2
              cases h
              exact ev_trans (ihAsg _ _ _ _ _ heq1) (ihTop _ _ _ _ _ heq2)
            · exact PResult.noConfusion h
            · exact PResult.noConfusion h
            · exact PResult.noConfusion h
        · cases h
          exact ihAsg _ _ _ _ _ heq1
      · exact PResult.noConfusion h
      · exact PResult.noConfusion h
      · exact PResult.noConfusion h
    · -- parseStmt
      intro input st a r st' h
      simp only [parseStmt] at h
      split at h
      · exact ihBlock _ _ _ _ _ h
      · split at h
        · split at h
          · exact PResult.noConfusion h
          · exact ihBTail _ _ _ _ _ _ h
        · split at h
          · split at h
            · exact PResult.noConfusion h
            · exact ihBTail _ _ _ _ _ _ h
          · split at h
            · exact ev_parseDeclStmt _ _ _ _ _ _ h
            · split at h
              · rename_i e r0 st2 heq
                split at h
                · exact PResult.noConfusion h
                · cases h
                  exact ihTop _ _ _ _ _ heq
              · exact PResult.noConfusion h
              · exact PResult.noConfusion h
              · exact PResult.noConfusion h
    · -- parseBuiltinTail
      intro b input st a r st' h
      simp only [parseBuiltinTail] at h
      split at h
      · rename_i e r0 st2 heq
        split at h
        · exact PResult.noConfusion h
        · cases h
          exact ihTop _ _ _ _ _ heq
      · exact PResult.noConfusion h
      · exact PResult.noConfusion h
      · exact PResult.noConfusion h
    · -- parseStmts
      intro acc input st a r st' h
      simp only [parseStmts] at h
      split at h
      · split at h
        · exact PResult.noConfusion h
        · cases h
          exact ev_refl _
      · split at h
        · rename_i s r0 st2 heq
          exact ev_trans (ihStmt _ _ _ _ _ heq) (ihStmts _ _ _ _ _ _ h)
        · exact PResult.noConfusion h
        · exact PResult.noConfusion h
        · exact PResult.noConfusion h
    · -- parseBlockStmt
      intro input st a r st' h
      simp only [parseBlockStmt] at h
      split at h
      · exact PResult.noConfusion h
      · split at h
        · rename_i ss r2 st2 heq
          cases h
          exact ihStmts _ _ _ _ _ _ heq
        · exact PResult.noConfusion h
        · exact PResult.noConfusion h
        · exact PResult.noConfusion h

theorem functionDefinitionValue_state (st : CompilerState) (ty : Ty)
    (d : Declarator) (body : Stmt) (x : Decl) (st' : CompilerState)
    (h : functionDefinitionValue st ty d body = Option.some (x, st')) :
    st' = st := by
  unfold functionDefinitionValue at h
  split at h
  · split at h
    · cases h
      rfl
    · exact Option.noConfusion h
  · exact Option.noConfusion h

theorem fd_diag_allvar (fuel : Nat) (input : List Char) (st : CompilerState)
    (d : Decl) (r : List Char) (st' : CompilerState)
    (h : parseFunctionDefinition fuel input st = .ok d r st') :
    DiagEv st st' ∧ ∀ p ∈ st'.local_symbols, IsVarDecl p.2 := by
  cases fuel with
  | zero => simp [parseFunctionDefinition] at h
  | succ f =>
    simp only [parseFunctionDefinition] at h
    split at h
    · exact PResult.noConfusion h
    · split at h
      · split at h
        · rename_i body r3 st2 heq
          split at h
          · rename_i p heq2
            cases h
            have hst := functionDefinitionValue_state _ _ _ _ _ _ heq2
            obtain ⟨htab, hdg⟩ := (parse_ev f).2.2.2.2.2.2.2.2.2.2.2 _ _ _ _ _ heq
            subst hst
            constructor
            · obtain ⟨nd, hnd, he⟩ := hdg
              exact ⟨nd, hnd, he⟩
            · intro p hp
              obtain ⟨nb, hnb, hv⟩ := htab
              rw [hnb] at hp
              simp only [List.append_nil] at hp
              exact hv p hp
          · exact PResult.noConfusion h
        · exact PResult.noConfusion h
        · exact PResult.noConfusion h
        · exact PResult.noConfusion h
      · exact PResult.noConfusion h
      · exact PResult.noConfusion h

theorem tu_diag_allvar : ∀ (fuel : Nat) (acc : List Decl) (input : List Char)
    (st : CompilerState) (decls : List Decl) (rest : List Char)
    (st' : CompilerState),
    parseTUList fuel acc input st = .ok decls rest st' →
    DiagEv st st' ∧ ∀ p ∈ st'.local_symbols, IsVarDecl p.2 := by
  intro fuel
  induction fuel with
  | zero =>
    intro acc input st decls rest st' h
    simp [parseTUList] at h
  | succ f ih =>
    intro acc input st decls rest st' h
    simp only [parseTUList] at h
    split at h
    · rename_i d r1 st2 heq
      obtain ⟨hdg, hav⟩ := fd_diag_allvar _ _ _ _ _ _ heq
      split at h
      · cases h
        exact ⟨hdg, hav⟩
      · obtain ⟨hdg2, hav2⟩ := ih _ _ _ _ _ _ h
        exact ⟨diagEv_trans hdg hdg2, hav2⟩
    · exact PResult.noConfusion h
    · exact PResult.noConfusion h
    · exact PResult.noConfusion h

set_option maxRecDepth 40000

/-- C1: for every input buffer, `compile` returns a present AST if and only
if the syntactic parse succeeds and the unit error flag stays unset; whenever
the parse fails or a semantic error was recorded the result is absent (in the
model the arena root `Option.some ⟨decls⟩` is built only in the success
branch, so it is never installed otherwise); and over a whole run the unit
error flag is set exactly when at least one error-severity diagnostic was
recorded. -/
theorem c1_compile_present_iff (fuel : Nat) (input : List Char) :
    ((∃ tu, compileWith fuel input = .returns (Option.some tu)) ↔
      (∃ r decls rest st, skipWs input = Option.some r ∧
        parseTUList fuel [] r initialState = .ok decls rest st ∧
        st.errored = false))
    ∧ (∀ r decls rest st, skipWs input = Option.some r →
        parseTUList fuel [] r initialState = .ok decls rest st →
        st.errored = true →
        compileWith fuel input = .returns Option.none)
    ∧ (∀ r, skipWs input = Option.some r →
        parseTUList fuel [] r initialState = .error →
        compileWith fuel input = .returns Option.none)
    ∧ (∀ r decls rest st, skipWs input = Option.some r →
        parseTUList fuel [] r initialState = .ok decls rest st →
        (st.errored = true ↔ st.diags ≠ [])) := by
  refine ⟨⟨?_, ?_⟩, ?_, ?_, ?_⟩
  · rintro ⟨tu, h⟩
    unfold compileWith at h
    split at h
    · simp at h
    · rename_i r heq1
      split at h
      · rename_i decls rest st heq2
        split at h
        · simp at h
        · rename_i herr
          exact ⟨r, decls, rest, st, heq1, heq2, by simpa using herr⟩
      · simp at h
      · simp at h
      · simp at h
  · rintro ⟨r, decls, rest, st, h1, h2, h3⟩
    refine ⟨⟨decls⟩, ?_⟩
    unfold compileWith
    simp [h1, h2, h3]
  · intro r decls rest st h1 h2 h3
    unfold compileWith
    simp [h1, h2, h3]
  · intro r h1 h2
    unfold compileWith
    simp [h1, h2]
  · intro r decls rest st h1 h2
    obtain ⟨⟨nd, hnd, he⟩, _⟩ := tu_diag_allvar fuel [] r initialState decls rest st h2
    rw [he, hnd]
    cases nd <;> simp [initialState]

/-- Witness for C1: the duplicate-declaration program parses successfully
with the error flag set, and the compile result is therefore absent. -/
theorem c1_compile_present_iff_witness :
    parseTUList (fuelFor srcDupDecl.toList) [] srcDupDecl.toList initialState =
      .ok (.function_decl nmF fnTyInt
            (.block_stmt
              (.decl_stmt (varX0 :: []) :: .decl_stmt (varX1 :: []) :: [])) :: [])
        []
        { local_symbols := (nmX, varX1) :: (nmX, varX0) :: [],
          errored := true,
          diags := .duplicate_local_declaration nmX :: [],
          next_id := 2 }
    ∧ compileWith (fuelFor srcDupDecl.toList) srcDupDecl.toList =
        .returns Option.none :=
  ⟨rfl,
    (c1_compile_present_iff (fuelFor srcDupDecl.toList) srcDupDecl.toList).2.1
      srcDupDecl.toList
      (.function_decl nmF fnTyInt
        (.block_stmt
          (.decl_stmt (varX0 :: []) :: .decl_stmt (varX1 :: []) :: [])) :: [])
      []
      { local_symbols := (nmX, varX1) :: (nmX, varX0) :: [],
        errored := true,
        diags := .duplicate_local_declaration nmX :: [],
        next_id := 2 }
      rfl rfl rfl⟩

/-- C2: resolving a fully parsed declarator produces exactly one declaration
kind: a name-declarator root yields a variable declaration with that name and
the (int) type specifier; a function-declarator directly wrapping a name
yields a function declaration with that name; concretely, the statement
`int x;` yields one variable declaration named x (and `int (x);` resolves
identically), and `int f() { }` yields one function declaration named f. -/
theorem c2_declarator_resolution :
    (∀ (st : CompilerState) (n : Symbol),
      resolveDeclaration st (.name_declarator n :: []) =
        Option.some (Decl.variable_decl st.next_id n .builtin_int :: [],
          { st with next_id := st.next_id + 1 }))
    ∧ (∀ (st : CompilerState) (ty : Ty) (body : Stmt) (n : Symbol),
        functionDefinitionValue st ty
            (.function_declarator (.name_declarator n)) body =
          Option.some (.function_decl n (.function_type ty) body, st))
    ∧ runStmtFrom initialState srcDeclX =
        .ok (.decl_stmt (varX0 :: [])) []
          { local_symbols := (nmX, varX0) :: [], errored := false,
            diags := [], next_id := 1 }
    ∧ runStmtFrom initialState srcDeclParenX =
        .ok (.decl_stmt (varX0 :: [])) []
          { local_symbols := (nmX, varX0) :: [], errored := false,
            diags := [], next_id := 1 }
    ∧ compile srcFnEmpty =
        .returns (Option.some
          ⟨.function_decl nmF fnTyInt (.block_stmt []) :: []⟩) :=
  ⟨fun _ _ => rfl, fun _ _ _ _ => rfl, rfl, rfl, rfl⟩

/-- C3: evaluation of the code at the situations the spec calls recoverable
InvalidDeclarator diagnostics.  A function declarator wrapping a name inside
a declaration statement, a function declarator wrapping another function
declarator, and a top-level definition whose declarator is not a function
declarator all reach a `CLAUF_TODO` placeholder, which hard-aborts the
process instead of recording a recoverable diagnostic. -/
theorem c3_function_declarator_todo_aborts :
    compile srcFnRetFn = .aborted
    ∧ compile srcInnerFnDecl = .aborted
    ∧ compile srcNotFnDef = .aborted :=
  ⟨rfl, rfl, rfl⟩

/-- C4: binary-operator parsing follows the precedence and associativity
table: multiplicative binds tighter than additive, both are left-associative,
and assignment is right-associative; `1 + 2 * 3` parses as `1 + (2*3)`,
`1 * 2 + 3` as `(1*2) + 3`, `1 - 2 + 3` as `(1-2) + 3`, `8 / 4 / 2` as
`(8/4) / 2`, and `a = b = 1` as `a = (b = 1)`. -/
theorem c4_precedence_associativity :
    runExpr srcAddMul =
      .ok (.binary_expr .builtin_int .add
            (.integer_constant_expr .builtin_int 1)
            (.binary_expr .builtin_int .mul
              (.integer_constant_expr .builtin_int 2)
              (.integer_constant_expr .builtin_int 3))) [] initialState
    ∧ runExpr srcMulAdd =
      .ok (.binary_expr .builtin_int .add
            (.binary_expr .builtin_int .mul
              (.integer_constant_expr .builtin_int 1)
              (.integer_constant_expr .builtin_int 2))
            (.integer_constant_expr .builtin_int 3)) [] initialState
    ∧ runExpr srcSubAdd =
      .ok (.binary_expr .builtin_int .add
            (.binary_expr .builtin_int .sub
              (.integer_constant_expr .builtin_int 1)
              (.integer_constant_expr .builtin_int 2))
            (.integer_constant_expr .builtin_int 3)) [] initialState
    ∧ runExpr srcDivDiv =
      .ok (.binary_expr .builtin_int .div
            (.binary_expr .builtin_int .div
              (.integer_constant_expr .builtin_int 8)
              (.integer_constant_expr .builtin_int 4))
            (.integer_constant_expr .builtin_int 2)) [] initialState
    ∧ runExpr srcAssignChain =
      .ok (.assignment_expr .builtin_int .none idNone
            (.assignment_expr .builtin_int .none idNone
              (.integer_constant_expr .builtin_int 1))) []
        { local_symbols := [], errored := true,
          diags := .unknown_identifier nmB :: .unknown_identifier nmA :: [],
          next_id := 0 } :=
  ⟨rfl, rfl, rfl, rfl, rfl⟩

/-- C5: a single `<` or `>` is a relational operator only when the next
character is not another `<` or `>` (that sequence belongs to shift):
relational never matches `<<` or `>>`, shift does match them, the general
single-character fallback holds, and `1 < 2`, `a << 1`, `1 < 2 < 3` parse as
less-than, shift-left and `(1<2)<3` respectively. -/
theorem c5_relational_shift_disambiguation :
    (∀ r, rawLevelOp .rel ('<' :: '<' :: r) = Option.none)
    ∧ (∀ r, rawLevelOp .rel ('>' :: '>' :: r) = Option.none)
    ∧ (∀ r, rawLevelOp .shift ('<' :: '<' :: r) = Option.some (.bin .shl, r))
    ∧ (∀ r, rawLevelOp .shift ('>' :: '>' :: r) = Option.some (.bin .shr, r))
    ∧ (∀ (c : Char) (r : List Char), rawLevelOp .rel ('<' :: c :: r) =
        (if c = '<' then Option.none
         else if c = '=' then Option.some (.bin .le, r)
         else Option.some (.bin .lt, c :: r)))
    ∧ (∀ (c : Char) (r : List Char), rawLevelOp .rel ('>' :: c :: r) =
        (if c = '>' then Option.none
         else if c = '=' then Option.some (.bin .ge, r)
         else Option.some (.bin .gt, c :: r)))
    ∧ runExpr srcLess =
      .ok (.binary_expr .builtin_int .lt
            (.integer_constant_expr .builtin_int 1)
            (.integer_constant_expr .builtin_int 2)) [] initialState
    ∧ runExpr srcShift =
      .ok (.binary_expr .builtin_int .shl idNone
            (.integer_constant_expr .builtin_int 1)) []
        { local_symbols := [], errored := true,
          diags := .unknown_identifier nmA :: [], next_id := 0 }
    ∧ runExpr srcLessChain =
      .ok (.binary_expr .builtin_int .lt
            (.binary_expr .builtin_int .lt
              (.integer_constant_expr .builtin_int 1)
              (.integer_constant_expr .builtin_int 2))
            (.integer_constant_expr .builtin_int 3)) [] initialState := by
  refine ⟨fun r => rfl, fun r => rfl, fun r => rfl, fun r => rfl, ?_, ?_,
    rfl, rfl, rfl⟩
  · intro c r
    by_cases h1 : c = '<'
    · subst h1; simp [rawLevelOp, headIs]
    · by_cases h2 : c = '='
      · subst h2; simp [rawLevelOp]
      · simp only [rawLevelOp, headIs, h1, h2]
        split <;> simp_all [headIs]
        rename_i hne heq
        subst heq
        simp [h1]
  · intro c r
    by_cases h1 : c = '>'
    · subst h1; simp [rawLevelOp, headIs]
    · by_cases h2 : c = '='
      · subst h2; simp [rawLevelOp]
      · simp only [rawLevelOp, headIs, h1, h2]
        split <;> simp_all [headIs]
        rename_i hne heq
        subst heq
        simp [h1]

/-- C6: every identifier expression looks its symbol up in the active scope;
on success the node references the found declaration and the state is
untouched, on failure an "unknown identifier" diagnostic is recorded, the
unit error flag is set, and a reference node with no resolved declaration is
still synthesized; concretely a body with two unknown identifiers parses to
completion collecting both diagnostics, and the compile result is absent. -/
theorem c6_identifier_lookup :
    (∀ (st : CompilerState) (n : Symbol) (d : Decl),
      lookupSym st.local_symbols n = Option.some d →
      identifierExprValue st n =
        (.identifier_expr .builtin_int (Option.some d), st))
    ∧ (∀ (st : CompilerState) (n : Symbol),
        lookupSym st.local_symbols n = Option.none →
        identifierExprValue st n =
          (.identifier_expr .builtin_int Option.none,
           { st with
              errored := true,
              diags := .unknown_identifier n :: st.diags }))
    ∧ runTU srcTwoUnknown =
        .ok (.function_decl nmF fnTyInt
              (.block_stmt (.expr_stmt idNone :: .expr_stmt idNone :: [])) :: [])
          []
          { local_symbols := [], errored := true,
            diags := .unknown_identifier nmZ :: .unknown_identifier nmY :: [],
            next_id := 0 }
    ∧ compile srcTwoUnknown = .returns Option.none := by
  refine ⟨?_, ?_, rfl, rfl⟩
  · intro st n d h
    unfold identifierExprValue
    simp [h]
  · intro st n h
    unfold identifierExprValue
    simp [h]

/-- Witness for C6: looking up `y` in the empty initial scope fails, and the
identifier callback still synthesizes an unresolved reference node while
recording the diagnostic and setting the error flag. -/
theorem c6_identifier_lookup_witness :
    lookupSym initialState.local_symbols nmY = Option.none
    ∧ identifierExprValue initialState nmY =
        (.identifier_expr .builtin_int Option.none,
         { initialState with
            errored := true,
            diags := .unknown_identifier nmY :: initialState.diags }) :=
  ⟨rfl, c6_identifier_lookup.2.1 initialState nmY rfl⟩

/-- C7: binding a symbol that is already bound in the same scope reports a
"duplicate local declaration" diagnostic, sets the unit error flag, and still
installs the new binding, so a subsequent lookup in the scope resolves to the
newest declaration; concretely `int f() { int x; int x; }` records the
duplicate diagnostic with the newest binding first, and the compile result is
absent. -/
theorem c7_duplicate_declaration_last_wins :
    (∀ (st : CompilerState) (d prev : Decl),
      lookupSym st.local_symbols d.name = Option.some prev →
      bindOne st d =
        { st with
          local_symbols := (d.name, d) :: st.local_symbols,
          errored := true,
          diags := .duplicate_local_declaration d.name :: st.diags }
      ∧ lookupSym (bindOne st d).local_symbols d.name = Option.some d)
    ∧ runTU srcDupDecl =
        .ok (.function_decl nmF fnTyInt
              (.block_stmt
                (.decl_stmt (varX0 :: []) :: .decl_stmt (varX1 :: []) :: [])) :: [])
          []
          { local_symbols := (nmX, varX1) :: (nmX, varX0) :: [],
            errored := true,
            diags := .duplicate_local_declaration nmX :: [],
            next_id := 2 }
    ∧ compile srcDupDecl = .returns Option.none := by
  refine ⟨?_, rfl, rfl⟩
  intro st d prev h
  constructor
  · unfold bindOne insertOrShadow
    simp [h]
  · unfold bindOne insertOrShadow
    simp [h, lookupSym]

/-- Witness for C7: with `x` already bound to the first declaration, binding
the second declaration of `x` reports the duplicate and a lookup then yields
the newest declaration. -/
theorem c7_duplicate_declaration_last_wins_witness :
    lookupSym ((nmX, varX0) :: []) (Decl.name varX1) = Option.some varX0
    ∧ (bindOne ⟨(nmX, varX0) :: [], false, [], 2⟩ varX1 =
        { local_symbols := (Decl.name varX1, varX1) :: (nmX, varX0) :: [],
          errored := true,
          diags := .duplicate_local_declaration (Decl.name varX1) :: [],
          next_id := 2 }
      ∧ lookupSym (bindOne ⟨(nmX, varX0) :: [], false, [], 2⟩ varX1).local_symbols
          (Decl.name varX1) = Option.some varX1) :=
  ⟨rfl, c7_duplicate_declaration_last_wins.1
    ⟨(nmX, varX0) :: [], false, [], 2⟩ varX1 varX0 rfl⟩

/-- C8: integer-literal atoms accept decimal (a leading zero selects the
octal branch instead), octal, hexadecimal and binary forms with the tick
digit separator ignored for the value, parsed as a 64-bit unsigned magnitude
and typed builtin-int: `0x1F` evaluates to 31, `0b101` to 5, `017` to 15 and
`1'000` to 1000, the largest 64-bit value is accepted and one more is
rejected. -/
theorem c8_integer_literals :
    parseIntegerConstant srcHex.toList initialState =
      .ok (.integer_constant_expr .builtin_int 31) [] initialState
    ∧ parseIntegerConstant srcBin.toList initialState =
      .ok (.integer_constant_expr .builtin_int 5) [] initialState
    ∧ parseIntegerConstant srcOct.toList initialState =
      .ok (.integer_constant_expr .builtin_int 15) [] initialState
    ∧ parseIntegerConstant srcTick.toList initialState =
      .ok (.integer_constant_expr .builtin_int 1000) [] initialState
    ∧ parseIntegerConstant srcU64Max.toList initialState =
      .ok (.integer_constant_expr .builtin_int 18446744073709551615) [] initialState
    ∧ parseIntegerConstant srcU64Over.toList initialState = .error :=
  ⟨rfl, rfl, rfl, rfl, rfl, rfl⟩

/-- C9: exactly one symbol-table scope exists per function: the result of
parsing a function definition is independent of the incoming symbol table
(the table is cleared after the declarator, before the body); a block
statement opens no nested scope (its bindings extend the enclosing table and
are never popped); concretely a declaration inside a nested block is visible
after the block, a duplicate split across nesting depths still collides, and
a name declared in one function is unknown in the next. -/
theorem c9_single_scope_per_function :
    (∀ (fuel : Nat) (input : List Char) (ls1 ls2 : List (Symbol × Decl))
        (e : Bool) (dg : List Diag) (k : Nat),
      parseFunctionDefinition fuel input ⟨ls1, e, dg, k⟩ =
        parseFunctionDefinition fuel input ⟨ls2, e, dg, k⟩)
    ∧ (∀ (fuel : Nat) (input : List Char) (st : CompilerState) (s : Stmt)
        (r : List Char) (st' : CompilerState),
        parseBlockStmt fuel input st = .ok s r st' →
        ∃ nb, st'.local_symbols = nb ++ st.local_symbols)
    ∧ compile srcNestedUse =
        .returns (Option.some
          ⟨.function_decl nmF fnTyInt
            (.block_stmt
              (.block_stmt (.decl_stmt (varX0 :: []) :: []) ::
               .expr_stmt (.identifier_expr .builtin_int (Option.some varX0)) :: []))
            :: []⟩)
    ∧ compile srcNestedDup = .returns Option.none
    ∧ runTU srcCrossFn =
        .ok (.function_decl nmF fnTyInt
              (.block_stmt (.decl_stmt (varX0 :: []) :: [])) ::
             .function_decl nmG fnTyInt
              (.block_stmt (.expr_stmt idNone :: [])) :: [])
          []
          { local_symbols := [], errored := true,
            diags := .unknown_identifier nmX :: [], next_id := 1 } := by
  refine ⟨?_, ?_, rfl, rfl, rfl⟩
  · intro fuel input ls1 ls2 e dg k
    cases fuel with
    | zero => rfl
    | succ f => rfl
  · intro fuel input st s r st' h
    obtain ⟨⟨nb, hnb, _⟩, _⟩ :=
      (parse_ev fuel).2.2.2.2.2.2.2.2.2.2.2 _ _ _ _ _ h
    exact ⟨nb, hnb⟩

/-- Witness for C9: parsing the block `{ int x; }` from the initial state
succeeds and the resulting table extends the (empty) enclosing table. -/
theorem c9_single_scope_per_function_witness :
    parseBlockStmt (fuelFor srcBlockX.toList) srcBlockX.toList initialState =
      .ok (.block_stmt (.decl_stmt (varX0 :: []) :: [])) []
        ⟨(nmX, varX0) :: [], false, [], 1⟩
    ∧ ∃ nb, ((⟨(nmX, varX0) :: [], false, [], 1⟩ : CompilerState).local_symbols =
        nb ++ initialState.local_symbols) :=
  ⟨rfl, c9_single_scope_per_function.2.1
    (fuelFor srcBlockX.toList) srcBlockX.toList initialState
    (.block_stmt (.decl_stmt (varX0 :: []) :: [])) []
    ⟨(nmX, varX0) :: [], false, [], 1⟩ rfl⟩

/-- C10: the symbol table only ever holds variable declarations (the only
insertion site is the declaration-statement callback, and the declarations it
produces are variable declarations), so every successful lookup yields a
variable declaration; an identifier naming a function, including the
enclosing function's own name, fails lookup and is reported as an unknown
identifier. -/
theorem c10_only_decl_stmt_binds :
    (∀ (fuel : Nat) (acc : List Decl) (input : List Char) (st : CompilerState)
        (decls : List Decl) (rest : List Char) (st' : CompilerState),
      parseTUList fuel acc input st = .ok decls rest st' →
      ∀ p ∈ st'.local_symbols, IsVarDecl p.2)
    ∧ (∀ (tbl : List (Symbol × Decl)) (n : Symbol) (d : Decl),
        (∀ p ∈ tbl, IsVarDecl p.2) →
        lookupSym tbl n = Option.some d → IsVarDecl d)
    ∧ runTU srcSelfRef =
        .ok (.function_decl nmF fnTyInt
              (.block_stmt (.expr_stmt idNone :: [])) :: [])
          []
          { local_symbols := [], errored := true,
            diags := .unknown_identifier nmF :: [], next_id := 0 }
    ∧ compile srcSelfRef = .returns Option.none := by
  refine ⟨?_, ?_, rfl, rfl⟩
  · intro fuel acc input st decls rest st' h
    exact (tu_diag_allvar fuel acc input st decls rest st' h).2
  · intro tbl n d hall h
    induction tbl with
    | nil => simp [lookupSym] at h
    | cons p rest ih =>
      simp only [lookupSym] at h
      split at h
      · cases h
        exact hall p (by simp)
      · exact ih (fun q hq => hall q (List.mem_cons_of_mem _ hq)) h

/-- Witness for C10: in a one-entry all-variable table, looking up `x`
succeeds and the found declaration is a variable declaration. -/
theorem c10_only_decl_stmt_binds_witness :
    (∀ p ∈ (nmX, varX0) :: ([] : List (Symbol × Decl)), IsVarDecl p.2)
    ∧ lookupSym ((nmX, varX0) :: []) nmX = Option.some varX0
    ∧ IsVarDecl varX0 := by
  have hall : ∀ p ∈ (nmX, varX0) :: ([] : List (Symbol × Decl)), IsVarDecl p.2 := by
    intro p hp
    rcases List.mem_singleton.mp hp with rfl
    exact ⟨0, nmX, .builtin_int, rfl⟩
  exact ⟨hall, rfl,
    c10_only_decl_stmt_binds.2.1 ((nmX, varX0) :: []) nmX varX0 hall rfl⟩

end Clauf

